import Mathlib

/-!
Verification of the statistical core of `analise_sindrome_gripal.py`:
a shallow embedding of the script's data handling (symptom counting,
empirical probability, two-proportion z-test, Welch t-test, column-name
normalization, missing-file error path) together with theorems about it.

Python strings are embedded as lists of Unicode code points (`PyStr`);
numeric columns with missing values as `List (Option ℚ)`; statistics
whose value involves a square root or a distribution CDF live in `ℝ`.
-/

namespace SindromeGripal

/-- A Python string, as its sequence of Unicode code points. -/
abbrev PyStr := List ℕ

/-- Convenience: build a `PyStr` from a Lean string literal. -/
def pystr (s : String) : PyStr := s.data.map Char.toNat

/-- Python's whitespace test (`str.strip`'s notion), complete on the
Latin-1 range the script's data decodes to: SPACE, TAB through CR,
FS through US (U+001C–U+001F), NEL (U+0085) and NBSP (U+00A0). -/
def isSpaceCp (c : ℕ) : Bool :=
  c = 32 || (9 ≤ c && c ≤ 13) || (28 ≤ c && c ≤ 31) || c = 133 || c = 160

/-- Python `str.strip()`: drop leading and trailing whitespace. -/
def stripCp (s : PyStr) : PyStr :=
  ((s.dropWhile isSpaceCp).reverse.dropWhile isSpaceCp).reverse

/-- Python `str.split(",")`: split on commas, keeping empty fields;
the empty string yields `[""]`, exactly as in Python. -/
def splitComma : PyStr → List PyStr
  | [] => [[]]
  | c :: rest =>
    match splitComma rest with
    | [] => [[]]
    | h :: t => if c = 44 then [] :: h :: t else (c :: h) :: t

/-- One row's derived symptom count, from
`df[col].fillna("").apply(lambda x: len([s for s in str(x).split(",") if s.strip() != ""]))`:
a missing value becomes the empty string, then non-blank comma-separated
tokens are counted. -/
def num_sintomas (x : Option PyStr) : ℕ :=
  (splitComma (x.getD [])).countP (fun s => !(stripCp s).isEmpty)

/-- The derived `num_sintomas` column: the whole column is `pd.NA`-null
(`none`) exactly when the `sintomas` column is missing from the dataset
(the `else` branch at line 86); otherwise it is computed row by row. -/
def symptomCountColumn (col : Option (List (Option PyStr))) : Option (List ℕ) :=
  col.map (fun rows => rows.map num_sintomas)

/-- Python `str.lower()` per code point, faithful on the whole Latin-1
range the script's data decodes to: ASCII `A`–`Z` and the Latin-1
uppercase letters U+00C0–U+00DE (except `×` U+00D7) map 32 code points
up; every other Latin-1 code point (including `ß`, `µ`, `ª`, `º`) is its
own lowercase. -/
def lowerCp (c : ℕ) : ℕ :=
  if 65 ≤ c ∧ c ≤ 90 then c + 32
  else if 192 ≤ c ∧ c ≤ 222 ∧ c ≠ 215 then c + 32
  else c

/-- `tgt` occurs at the head of `hay`. -/
def matchesAt (hay tgt : PyStr) : Bool :=
  hay.take tgt.length == tgt

/-- `tgt` occurs somewhere in `hay` (Python's `tgt in hay`). -/
def hasSub (tgt : PyStr) : PyStr → Bool
  | [] => matchesAt [] tgt
  | c :: rest => matchesAt (c :: rest) tgt || hasSub tgt rest

/-- Pandas `Series.str.contains(target, case=False, na=False)` on one cell:
a missing cell never matches; otherwise case-insensitive substring. -/
def cellContains (tgt : PyStr) (cell : Option PyStr) : Bool :=
  match cell with
  | none => false
  | some s => hasSub (tgt.map lowerCp) (s.map lowerCp)

/-- Lines 183–189: count of rows whose symptom text contains the target
(case-insensitively, missing treated as absent), paired with the total
row count `shape[0]` of the column. -/
def symptom_presence_count (col : List (Option PyStr)) (tgt : PyStr) : ℕ × ℕ :=
  (col.countP (cellContains tgt), col.length)

/-- Number of non-missing entries of a column (`Series.notna().sum()`). -/
def countValid (col : List (Option ℚ)) : ℕ :=
  col.countP (fun x => x.isSome)

/-- `empirical_probability`: rows satisfying the predicate over rows with a
non-missing value, with the script's explicit guard
`... / total_validos if total_validos > 0 else 0` (lines 215–217, 224–226).
A missing cell never satisfies the predicate (pandas comparisons with NaN
are `False`). -/
def empirical_probability (pred : ℚ → Bool) (col : List (Option ℚ)) : ℚ :=
  let num := col.countP (fun x => (x.map pred).getD false)
  let total := countValid col
  if 0 < total then (num : ℚ) / (total : ℚ) else 0

/-- Line 215–217: the probability that a case has age ≥ 35. -/
def prob_idoso (idade : List (Option ℚ)) : ℚ :=
  empirical_probability (fun a => 35 ≤ a) idade

/-- The complete Unicode NFKD decomposition table for the Latin-1 range
(U+0000–U+00FF), from UnicodeData.txt — the whole domain of column names
the script can see, since it decodes its CSVs with `encoding="latin1"`.
Every Latin-1 code point with a canonical or compatibility decomposition
is listed, fully expanded: NBSP → SPACE; `¨ ¯ ´ ¸` → SPACE + combining
mark; `ª º ² ³ ¹` → their plain letter/digit; `µ` → GREEK MU (U+03BC);
the vulgar fractions → digit, FRACTION SLASH (U+2044), digit; the accented
letters → base letter + combining mark.  A code point absent from the
table (all of ASCII in particular) decomposes to itself.  Latin-1 has no
combining marks, so per-code-point decomposition followed by
concatenation agrees with full-string NFKD (no canonical reordering can
apply). -/
def nfkdTable : List (ℕ × List ℕ) :=
  [(160, [32]), (168, [32, 776]), (170, [97]), (175, [32, 772]),
   (178, [50]), (179, [51]), (180, [32, 769]), (181, [956]),
   (184, [32, 807]), (185, [49]), (186, [111]),
   (188, [49, 8260, 52]), (189, [49, 8260, 50]), (190, [51, 8260, 52]),
   (192, [65, 768]), (193, [65, 769]), (194, [65, 770]), (195, [65, 771]),
   (196, [65, 776]), (197, [65, 778]), (199, [67, 807]),
   (200, [69, 768]), (201, [69, 769]), (202, [69, 770]), (203, [69, 776]),
   (204, [73, 768]), (205, [73, 769]), (206, [73, 770]), (207, [73, 776]),
   (209, [78, 771]),
   (210, [79, 768]), (211, [79, 769]), (212, [79, 770]), (213, [79, 771]),
   (214, [79, 776]),
   (217, [85, 768]), (218, [85, 769]), (219, [85, 770]), (220, [85, 776]),
   (221, [89, 769]),
   (224, [97, 768]), (225, [97, 769]), (226, [97, 770]), (227, [97, 771]),
   (228, [97, 776]), (229, [97, 778]), (231, [99, 807]),
   (232, [101, 768]), (233, [101, 769]), (234, [101, 770]), (235, [101, 776]),
   (236, [105, 768]), (237, [105, 769]), (238, [105, 770]), (239, [105, 776]),
   (241, [110, 771]),
   (242, [111, 768]), (243, [111, 769]), (244, [111, 770]), (245, [111, 771]),
   (246, [111, 776]),
   (249, [117, 768]), (250, [117, 769]), (251, [117, 770]), (252, [117, 776]),
   (253, [121, 769]), (255, [121, 776])]

/-- NFKD decomposition of one code point, as `.str.normalize("NFKD")`
applies it to Latin-1 input (see `nfkdTable`). -/
def nfkdCp (c : ℕ) : List ℕ :=
  (nfkdTable.lookup c).getD [c]

/-- `preparar_ano`'s column-name normalization (lines 42–49):
`strip`, `lower`, NFKD decomposition, then `encode("ascii","ignore")`
which drops every non-ASCII code point. -/
def normalize_colname (s : PyStr) : PyStr :=
  ((((stripCp s).map lowerCp).flatMap nfkdCp).filter (fun c => c < 128))

/-- Division as Python evaluates it on these operands: undefined on a zero
denominator (`1/0` raises `ZeroDivisionError`; numpy division by zero
propagates an undefined value). -/
def pydiv (a b : ℚ) : Option ℚ :=
  if b = 0 then none else some (a / b)

/-- Lines 191–198 of the z-test: the rational part of the computation —
`p1 = x1/n1`, `p2 = x2/n2`, `p_pool = (x1+x2)/(n1+n2)` and the variance
term `p_pool*(1-p_pool)*(1/n1 + 1/n2)` whose square root is the standard
error. Undefined (`none`) whenever one of the divisions is. -/
def twoPropCore (x1 n1 x2 n2 : ℕ) : Option (ℚ × ℚ × ℚ × ℚ) :=
  match pydiv (x1 : ℚ) (n1 : ℚ), pydiv (x2 : ℚ) (n2 : ℚ),
        pydiv ((x1 : ℚ) + (x2 : ℚ)) ((n1 : ℚ) + (n2 : ℚ)),
        pydiv 1 (n1 : ℚ), pydiv 1 (n2 : ℚ) with
  | some q1, some q2, some pp, some i1, some i2 =>
      some (q1, q2, pp, pp * (1 - pp) * (i1 + i2))
  | _, _, _, _, _ => none

/-- Lines 197–200: the full two-proportion z-test.  `Φ` stands for the
standard normal CDF `norm.cdf`, which is external library code (scipy);
the theorems below assume of it only properties the standard normal CDF
has.  Returns the pair `(z, p_value)` with
`se = sqrt(p_pool*(1-p_pool)*(1/n1+1/n2))`, `z = (p1-p2)/se` and
`p_value = 2*(1 - Φ(|z|))`, or `none` where Python's arithmetic is
undefined. -/
noncomputable def two_proportion_z_test (Φ : ℝ → ℝ) (x1 n1 x2 n2 : ℕ) :
    Option (ℝ × ℝ) :=
  match twoPropCore x1 n1 x2 n2 with
  | none => none
  | some (q1, q2, _, v) =>
      let se : ℝ := Real.sqrt ((v : ℚ) : ℝ)
      let z : ℝ := (((q1 : ℚ) : ℝ) - ((q2 : ℚ) : ℝ)) / se
      some (z, 2 * (1 - Φ |z|))

/-- `Series.dropna()`: keep the present values. -/
def dropna (xs : List (Option ℚ)) : List ℚ :=
  xs.filterMap id

/-- Arithmetic mean of a sample. -/
def mean (xs : List ℚ) : ℚ :=
  xs.sum / (xs.length : ℚ)

/-- Unbiased sample variance (`ddof = 1`), as `ttest_ind` uses. -/
def sampleVar (xs : List ℚ) : ℚ :=
  ((xs.map (fun x => (x - mean xs) ^ 2)).sum) / ((xs.length : ℚ) - 1)

/-- Welch's t-statistic, as `ttest_ind(a, b, equal_var=False)` computes it:
`(mean a - mean b) / sqrt(var a / len a + var b / len b)`. -/
noncomputable def welch_t (a b : List ℚ) : ℝ :=
  (((mean a : ℚ) : ℝ) - ((mean b : ℚ) : ℝ)) /
    Real.sqrt (((sampleVar a : ℚ) : ℝ) / (a.length : ℝ) +
      ((sampleVar b : ℚ) : ℝ) / (b.length : ℝ))

/-- The Welch–Satterthwaite degrees of freedom. -/
def welch_df (a b : List ℚ) : ℚ :=
  (sampleVar a / (a.length : ℚ) + sampleVar b / (b.length : ℚ)) ^ 2 /
    ((sampleVar a / (a.length : ℚ)) ^ 2 / ((a.length : ℚ) - 1) +
     (sampleVar b / (b.length : ℚ)) ^ 2 / ((b.length : ℚ) - 1))

/-- Lines 163–171: Welch's t-test on two samples after dropping missing
values from each independently.  `F df x` stands for the CDF of Student's
t distribution with `df` degrees of freedom, external library code
(scipy); the two-sided p-value is `2*(1 - F df |t|)`. -/
noncomputable def welch_t_test (F : ℝ → ℝ → ℝ) (sa sb : List (Option ℚ)) :
    ℝ × ℝ :=
  let a := dropna sa
  let b := dropna sb
  let t := welch_t a b
  (t, 2 * (1 - F ((welch_df a b : ℚ) : ℝ) |t|))

/-- Externally visible effects of a run: creating a directory, printing a
console message, writing a figure file.  Formatted numeric payloads of
prints are elided (they are floating-point renderings). -/
inductive Effect
  | mkdir (dir : String)
  | msg (s : String)
  | savefig (file : String)
deriving DecidableEq

/-- The slice of a loaded dataframe the analysis consumes. -/
structure Table where
  idade : List (Option ℚ)
  sintomas : Option (List (Option PyStr))
  hasSexo : Bool

def path_2023 : String := "dados/Notificações de Síndrome Gripal_SP_2023.csv"

def path_2024 : String := "dados/Notificações de Síndrome Gripal_SP_2024.csv"

/-- Effects of the analysis after both files loaded (lines 34–231):
console reports, three figure writes (the sex chart only when the column
exists), the hypothesis tests and the probability estimates. -/
def restOfTrace (df23 df24 : Table) : List Effect :=
  [Effect.msg "Arquivos carregados com sucesso.",
   Effect.msg "shapes",
   Effect.msg "Colunas disponíveis após padronização:",
   Effect.msg "Dados preparados com sucesso.",
   Effect.msg "--- Análise de Estatística Descritiva (todos os anos) ---",
   Effect.msg "--- Estatística Descritiva por ano (idade) ---",
   Effect.savefig "resultados/histograma_idade.png",
   Effect.savefig "resultados/boxplot_idade_ano.png"] ++
  (if df23.hasSexo || df24.hasSexo then
    [Effect.savefig "resultados/grafico_sexo_por_ano.png"] else []) ++
  [Effect.msg "--- Testes de Hipótese: 2023 vs 2024 ---",
   Effect.msg ">>> Teste t para idade média (2023 vs 2024)"] ++
  (match df23.sintomas, df24.sintomas with
   | some _, some _ => [Effect.msg ">>> Teste de proporção para o sintoma: Tosse"]
   | _, _ => []) ++
  [Effect.msg "--- Análise de Probabilidade (todas as notificações) ---"]

/-- `run_analysis` as a trace of effects over an abstract file system
(`fs path = none` means the path does not exist).  The output directory is
created at line 19 before any file is read; a `FileNotFoundError` from
either `read_csv` is caught, one error message is printed and the function
returns (lines 27–32). -/
def run_analysis (fs : String → Option Table) : List Effect :=
  Effect.mkdir "resultados" ::
  Effect.msg "Carregando os dados de Síndrome Gripal..." ::
  match fs path_2023, fs path_2024 with
  | some df23, some df24 => restOfTrace df23 df24
  | _, _ => [Effect.msg "Erro: Arquivo não encontrado. Verifique o caminho."]

end SindromeGripal

namespace SindromeGripal

/-- C3: per row, `symptom_count` is the count of non-empty comma-separated
tokens of the symptom text; a missing (null) symptom value counts the same
as the empty string (count 0); the scenario column
`["febre,tosse", "tosse", "", None]` yields `[2,1,0,0]`; the derived field
is null exactly when the symptom column is missing entirely. -/
theorem symptom_count_spec :
    symptomCountColumn (some [some (pystr "febre,tosse"), some (pystr "tosse"),
        some (pystr ""), none]) = some [2, 1, 0, 0]
    ∧ num_sintomas none = num_sintomas (some (pystr ""))
    ∧ (∀ rows, symptomCountColumn (some rows) = some (rows.map num_sintomas))
    ∧ symptomCountColumn none = none :=
  ⟨by decide, by decide, fun _ => rfl, rfl⟩

/-- C5: `empirical_probability` is satisfying-count over non-missing count,
and returns exactly 0 when the denominator is 0, in particular when the
column is entirely missing. -/
theorem empirical_probability_guard (pred : ℚ → Bool) (col : List (Option ℚ)) :
    (0 < countValid col →
      empirical_probability pred col =
        (col.countP (fun x => (x.map pred).getD false) : ℚ) / (countValid col : ℚ))
    ∧ (countValid col = 0 → empirical_probability pred col = 0)
    ∧ ((∀ x ∈ col, x = none) → empirical_probability pred col = 0) := by
  refine ⟨fun h => ?_, fun h => ?_, fun h => ?_⟩
  · simp only [empirical_probability, if_pos h]
  · simp [empirical_probability, h]
  · have hz : countValid col = 0 := by
      simp only [countValid, List.countP_eq_zero]
      intro a ha
      simp [h a ha]
    simp [empirical_probability, hz]

/-- Witness for C5 at the all-missing column `[none, none]`. -/
theorem empirical_probability_guard_witness :
    empirical_probability (fun a => 35 ≤ a) [none, none] = 0 :=
  (empirical_probability_guard (fun a => 35 ≤ a) [none, none]).2.2 (by decide)

/-- C10: the empirical probability of age ≥ 35 always lies in `[0,1]`:
missing ages satisfy neither the predicate nor the denominator count, so
the numerator never exceeds the denominator. -/
theorem prob_idoso_in_unit_interval (idade : List (Option ℚ)) :
    0 ≤ prob_idoso idade ∧ prob_idoso idade ≤ 1 := by
  unfold prob_idoso empirical_probability
  set num := idade.countP (fun x => (x.map (fun a => decide (35 ≤ a))).getD false) with hnum
  by_cases h : 0 < countValid idade
  · have hle : num ≤ countValid idade := by
      refine List.countP_mono_left ?_
      intro x _ hx
      cases x with
      | none => simp at hx
      | some a => simp [Option.isSome]
    have hpos : (0 : ℚ) < (countValid idade : ℚ) := by exact_mod_cast h
    constructor
    · simp only [if_pos h]
      positivity
    · simp only [if_pos h]
      rw [div_le_one hpos]
      exact_mod_cast hle
  · simp [if_neg h]

/-- C4: with a zero trial count on either side, the two-proportion z-test
is undefined (division by zero): the rational core and the full test both
yield no value; there is no guard on this path. -/
theorem two_prop_z_test_zero_trials (Φ : ℝ → ℝ) (x1 n1 x2 n2 : ℕ)
    (h : n1 = 0 ∨ n2 = 0) :
    twoPropCore x1 n1 x2 n2 = none
    ∧ two_proportion_z_test Φ x1 n1 x2 n2 = none := by
  have hcore : twoPropCore x1 n1 x2 n2 = none := by
    rcases h with h | h <;> subst h <;> simp [twoPropCore, pydiv]
  exact ⟨hcore, by simp [two_proportion_z_test, hcore]⟩

/-- Witness for C4: an empty 2023 sample (`n1 = 0`). -/
theorem two_prop_z_test_zero_trials_witness :
    twoPropCore 0 0 3 5 = none
    ∧ two_proportion_z_test (fun _ => 0) 0 0 3 5 = none :=
  two_prop_z_test_zero_trials (fun _ => 0) 0 0 3 5 (Or.inl rfl)

/-- C9: when either input file is missing, the run prints the loading
message and the error message, returns early (the trace is exactly the
directory creation plus those two prints), and writes no output file. -/
theorem missing_file_clean_exit (fs : String → Option Table)
    (h : fs path_2023 = none ∨ fs path_2024 = none) :
    run_analysis fs =
      [Effect.mkdir "resultados",
       Effect.msg "Carregando os dados de Síndrome Gripal...",
       Effect.msg "Erro: Arquivo não encontrado. Verifique o caminho."]
    ∧ (∀ f, Effect.savefig f ∉ run_analysis fs) := by
  have htrace : run_analysis fs =
      [Effect.mkdir "resultados",
       Effect.msg "Carregando os dados de Síndrome Gripal...",
       Effect.msg "Erro: Arquivo não encontrado. Verifique o caminho."] := by
    rcases h with h | h
    · unfold run_analysis
      rw [h]
    · unfold run_analysis
      rw [h]
      cases fs path_2023 <;> rfl
  refine ⟨htrace, fun f => ?_⟩
  rw [htrace]
  simp

/-- Witness for C9: a file system with no files at all. -/
theorem missing_file_clean_exit_witness :
    run_analysis (fun _ => none) =
      [Effect.mkdir "resultados",
       Effect.msg "Carregando os dados de Síndrome Gripal...",
       Effect.msg "Erro: Arquivo não encontrado. Verifique o caminho."]
    ∧ (∀ f, Effect.savefig f ∉ run_analysis (fun _ => none)) :=
  missing_file_clean_exit (fun _ => none) (Or.inl rfl)

lemma matchesAt_iff (hay tgt : PyStr) :
    matchesAt hay tgt = true ↔ tgt <+: hay := by
  unfold matchesAt
  rw [beq_iff_eq, List.prefix_iff_eq_take, eq_comm]

lemma hasSub_iff_infix (tgt hay : PyStr) :
    hasSub tgt hay = true ↔ tgt <:+: hay := by
  induction hay with
  | nil =>
    unfold hasSub
    rw [matchesAt_iff]
    simp
  | cons c rest ih =>
    unfold hasSub
    rw [Bool.or_eq_true, matchesAt_iff, ih, List.infix_cons_iff]

/-- C7: `symptom_presence_count` returns the number of rows whose symptom
text contains the target as a case-insensitive substring — a row matches
iff the lowercased target occurs inside the lowercased text, and a missing
value never matches — together with the total row count of the column. -/
theorem symptom_presence_count_spec (col : List (Option PyStr)) (tgt : PyStr) :
    (symptom_presence_count col tgt).2 = col.length
    ∧ (symptom_presence_count col tgt).1 = col.countP (cellContains tgt)
    ∧ cellContains tgt none = false
    ∧ (∀ s : PyStr, cellContains tgt (some s) = true ↔
        ∃ pre post, pre ++ tgt.map lowerCp ++ post = s.map lowerCp) :=
  ⟨rfl, rfl, rfl, fun s => hasSub_iff_infix (tgt.map lowerCp) (s.map lowerCp)⟩

lemma lookup_eq_none_of_ne (l : List (ℕ × List ℕ)) (c : ℕ)
    (h : ∀ p ∈ l, p.1 ≠ c) : l.lookup c = none := by
  induction l with
  | nil => rfl
  | cons p t ih =>
    have hne : (c == p.1) = false :=
      beq_eq_false_iff_ne.mpr (fun hx => h p (List.mem_cons_self p t) hx.symm)
    simp only [List.lookup, hne]
    exact ih (fun q hq => h q (List.mem_cons_of_mem p hq))

lemma nfkdTable_keys : ∀ p ∈ nfkdTable, 160 ≤ p.1 ∧ p.1 ≤ 255 := by decide

lemma nfkdCp_ascii (c : ℕ) (hc : c < 160) : nfkdCp c = [c] := by
  unfold nfkdCp
  rw [lookup_eq_none_of_ne nfkdTable c
    (fun p hp => by have := nfkdTable_keys p hp; omega)]
  rfl

set_option maxRecDepth 4096 in
lemma nfkd_lower_not_upper_latin1 :
    ∀ e ∈ List.range 256, ∀ c ∈ nfkdCp (lowerCp e), ¬(65 ≤ c ∧ c ≤ 90) := by decide

lemma mem_stripCp (c : ℕ) (s : PyStr) (h : c ∈ stripCp s) : c ∈ s := by
  unfold stripCp at h
  rw [List.mem_reverse] at h
  have h1 := (List.dropWhile_sublist isSpaceCp).subset h
  rw [List.mem_reverse] at h1
  exact (List.dropWhile_sublist isSpaceCp).subset h1

lemma lowerCp_fixed (c : ℕ) (h1 : c < 128) (h2 : ¬(65 ≤ c ∧ c ≤ 90)) :
    lowerCp c = c := by
  unfold lowerCp
  split_ifs <;> omega

lemma flatMap_eq_self (f : ℕ → List ℕ) :
    ∀ l : List ℕ, (∀ a ∈ l, f a = [a]) → l.flatMap f = l := by
  intro l
  induction l with
  | nil => intro _; rfl
  | cons a t ih =>
    intro h
    rw [List.flatMap_cons, h a (List.mem_cons_self a t),
      ih (fun b hb => h b (List.mem_cons_of_mem a hb))]
    rfl

/-- C8 counterexample: column-name normalization is NOT idempotent.
`´` (U+00B4 ACUTE ACCENT) and `¨` (U+00A8 DIAERESIS) are not whitespace,
so `strip` keeps them; their NFKD decompositions are SPACE + combining
mark, of which the ASCII fold keeps only the space: normalizing once
gives `" "`, normalizing that strips it to `""`. -/
theorem normalize_colname_not_idempotent :
    normalize_colname (normalize_colname (pystr "´")) ≠
      normalize_colname (pystr "´")
    ∧ normalize_colname (normalize_colname (pystr "¨")) ≠
      normalize_colname (pystr "¨") := by decide

/-- C8 (amended): for every Latin-1 column name — the only strings the
script's `encoding="latin1"` reader can produce — whose normalized form
has no leading or trailing whitespace, normalization is idempotent: the
normalized form is all-ASCII and (by `nfkd_lower_not_upper_latin1`)
contains no uppercase letter, so a second pass only re-strips it. -/
theorem normalize_colname_idem (s : PyStr) (hlat : ∀ c ∈ s, c < 256)
    (h : stripCp (normalize_colname s) = normalize_colname s) :
    normalize_colname (normalize_colname s) = normalize_colname s := by
  have key : ∀ c ∈ normalize_colname s, c < 128 ∧ ¬(65 ≤ c ∧ c ≤ 90) := by
    intro c hc
    unfold normalize_colname at hc
    rw [List.mem_filter] at hc
    obtain ⟨hmem, hlt⟩ := hc
    have hlt' : c < 128 := by simpa using hlt
    rw [List.mem_flatMap] at hmem
    obtain ⟨b, hb, hcb⟩ := hmem
    rw [List.mem_map] at hb
    obtain ⟨d, hd, rfl⟩ := hb
    have hd256 : d < 256 := hlat d (mem_stripCp d s hd)
    exact ⟨hlt', nfkd_lower_not_upper_latin1 d (List.mem_range.mpr hd256) c hcb⟩
  have step : ∀ u : PyStr, (∀ c ∈ u, c < 128 ∧ ¬(65 ≤ c ∧ c ≤ 90)) →
      stripCp u = u → normalize_colname u = u := by
    intro u hu hstrip
    unfold normalize_colname
    rw [hstrip]
    have hmap : u.map lowerCp = u := by
      conv_rhs => rw [← List.map_id u]
      apply List.map_congr_left
      intro a ha
      exact lowerCp_fixed a (hu a ha).1 (hu a ha).2
    rw [hmap, flatMap_eq_self nfkdCp u
      (fun a ha => nfkdCp_ascii a (by have := (hu a ha).1; omega))]
    rw [List.filter_eq_self.mpr]
    intro a ha
    exact decide_eq_true (by exact_mod_cast (hu a ha).1)
  exact step (normalize_colname s) key h

/-- Witness for the amended C8 at the Latin-1 name `" Situação "`, whose
normalized form `"situacao"` carries no leading or trailing whitespace. -/
theorem normalize_colname_idem_witness :
    (∀ c ∈ pystr " Situação ", c < 256)
    ∧ stripCp (normalize_colname (pystr " Situação ")) =
        normalize_colname (pystr " Situação ")
    ∧ normalize_colname (normalize_colname (pystr " Situação ")) =
        normalize_colname (pystr " Situação ") :=
  ⟨by decide, by decide,
    normalize_colname_idem (pystr " Situação ") (by decide) (by decide)⟩

lemma twoPropCore_pos (x1 n1 x2 n2 : ℕ) (h1 : 0 < n1) (h2 : 0 < n2) :
    twoPropCore x1 n1 x2 n2 =
      some ((x1 : ℚ) / (n1 : ℚ), (x2 : ℚ) / (n2 : ℚ),
        ((x1 : ℚ) + (x2 : ℚ)) / ((n1 : ℚ) + (n2 : ℚ)),
        (((x1 : ℚ) + (x2 : ℚ)) / ((n1 : ℚ) + (n2 : ℚ))) *
          (1 - ((x1 : ℚ) + (x2 : ℚ)) / ((n1 : ℚ) + (n2 : ℚ))) *
          (1 / (n1 : ℚ) + 1 / (n2 : ℚ))) := by
  have hq1 : (0 : ℚ) < (n1 : ℚ) := by exact_mod_cast h1
  have hq2 : (0 : ℚ) < (n2 : ℚ) := by exact_mod_cast h2
  have hn1 : (n1 : ℚ) ≠ 0 := hq1.ne'
  have hn2 : (n2 : ℚ) ≠ 0 := hq2.ne'
  have hs : (n1 : ℚ) + (n2 : ℚ) ≠ 0 := by linarith
  simp only [twoPropCore, pydiv, if_neg hn1, if_neg hn2, if_neg hs]

/-- The z-statistic exactly as §4.1 of the spec words it, written directly
over ℝ; used to compare the embedded code against the spec's formulas. -/
noncomputable def specZ (x1 n1 x2 n2 : ℕ) : ℝ :=
  ((x1 : ℝ) / (n1 : ℝ) - (x2 : ℝ) / (n2 : ℝ)) /
    Real.sqrt ((((x1 : ℝ) + (x2 : ℝ)) / ((n1 : ℝ) + (n2 : ℝ))) *
      (1 - ((x1 : ℝ) + (x2 : ℝ)) / ((n1 : ℝ) + (n2 : ℝ))) *
      (1 / (n1 : ℝ) + 1 / (n2 : ℝ)))

lemma two_prop_z_test_eq_spec (Φ : ℝ → ℝ) (x1 n1 x2 n2 : ℕ)
    (h1 : 0 < n1) (h2 : 0 < n2) :
    two_proportion_z_test Φ x1 n1 x2 n2 =
      some (specZ x1 n1 x2 n2, 2 * (1 - Φ |specZ x1 n1 x2 n2|)) := by
  rw [two_proportion_z_test, twoPropCore_pos x1 n1 x2 n2 h1 h2]
  have hnum : ((((x1 : ℚ) / (n1 : ℚ) : ℚ)) : ℝ) - (((x2 : ℚ) / (n2 : ℚ) : ℚ) : ℝ) =
      (x1 : ℝ) / (n1 : ℝ) - (x2 : ℝ) / (n2 : ℝ) := by
    push_cast
    ring
  have harg : (((((x1 : ℚ) + (x2 : ℚ)) / ((n1 : ℚ) + (n2 : ℚ))) *
      (1 - ((x1 : ℚ) + (x2 : ℚ)) / ((n1 : ℚ) + (n2 : ℚ))) *
      (1 / (n1 : ℚ) + 1 / (n2 : ℚ)) : ℚ) : ℝ) =
      (((x1 : ℝ) + (x2 : ℝ)) / ((n1 : ℝ) + (n2 : ℝ))) *
      (1 - ((x1 : ℝ) + (x2 : ℝ)) / ((n1 : ℝ) + (n2 : ℝ))) *
      (1 / (n1 : ℝ) + 1 / (n2 : ℝ)) := by
    push_cast
    ring
  simp only [hnum, harg, specZ]

/-- C1: for positive trial counts the z-test computes exactly the spec's
pooled proportion, standard error, z-statistic and two-sided p-value
`2*(1 - Φ(|z|))`; and at `x1=50, n1=100, x2=70, n2=100` the proportions
are `0.5`, `0.7`, the pooled proportion `0.6`, the magnitude of `z`
exceeds 2 and the p-value is below 0.05.  `Φ` is any monotone function
with `Φ(2) ≥ 0.976`; the standard normal CDF is monotone with
`Φ(2) ≈ 0.9772`. -/
theorem two_prop_z_test_spec (Φ : ℝ → ℝ) (hmono : Monotone Φ)
    (hΦ2 : (0.976 : ℝ) ≤ Φ 2) :
    (∀ x1 n1 x2 n2 : ℕ, 0 < n1 → 0 < n2 →
      two_proportion_z_test Φ x1 n1 x2 n2 =
        some (specZ x1 n1 x2 n2, 2 * (1 - Φ |specZ x1 n1 x2 n2|)))
    ∧ twoPropCore 50 100 70 100 = some (1/2, 7/10, 3/5, 3/625)
    ∧ (∃ z p, two_proportion_z_test Φ 50 100 70 100 = some (z, p)
        ∧ 2 < |z| ∧ p < 1/20) := by
  refine ⟨fun x1 n1 x2 n2 h1 h2 => two_prop_z_test_eq_spec Φ x1 n1 x2 n2 h1 h2,
    ?_, ?_⟩
  · rw [twoPropCore_pos 50 100 70 100 (by norm_num) (by norm_num)]
    norm_num
  · refine ⟨specZ 50 100 70 100, 2 * (1 - Φ |specZ 50 100 70 100|),
      two_prop_z_test_eq_spec Φ 50 100 70 100 (by norm_num) (by norm_num), ?_, ?_⟩
    all_goals {
      have harg : (((50:ℕ) : ℝ) + ((70:ℕ) : ℝ)) / (((100:ℕ) : ℝ) + ((100:ℕ) : ℝ)) *
          (1 - (((50:ℕ) : ℝ) + ((70:ℕ) : ℝ)) / (((100:ℕ) : ℝ) + ((100:ℕ) : ℝ))) *
          (1 / ((100:ℕ) : ℝ) + 1 / ((100:ℕ) : ℝ)) = 3/625 := by
        norm_num
      have hz : specZ 50 100 70 100 = -(1/5) / Real.sqrt (3/625) := by
        unfold specZ
        rw [harg]
        norm_num
      have hspos : (0:ℝ) < Real.sqrt (3/625) := Real.sqrt_pos.mpr (by norm_num)
      have hslt : Real.sqrt (3/625) < 1/10 := by
        rw [Real.sqrt_lt' (by norm_num)]
        norm_num
      have habs : |specZ 50 100 70 100| = (1/5) / Real.sqrt (3/625) := by
        rw [hz, abs_div, abs_neg, abs_of_pos hspos,
          abs_of_pos (show (0:ℝ) < 1/5 by norm_num)]
      have h2lt : (2:ℝ) < |specZ 50 100 70 100| := by
        rw [habs, lt_div_iff₀ hspos]
        linarith
      first
      | exact h2lt
      | · have hmono2 : Φ 2 ≤ Φ |specZ 50 100 70 100| := hmono h2lt.le
          linarith
    }

/-- Witness for C1 with the constant function 1 (monotone, value ≥ 0.976
at 2) as `Φ`, at the scenario input. -/
theorem two_prop_z_test_spec_witness :
    ∃ z p, two_proportion_z_test (fun _ => (1:ℝ)) 50 100 70 100 = some (z, p)
      ∧ 2 < |z| ∧ p < 1/20 :=
  (two_prop_z_test_spec (fun _ => (1:ℝ)) monotone_const (by norm_num)).2.2

/-- C6: with positive trial counts and a non-degenerate pooled proportion,
swapping the two samples negates the z-statistic and leaves the p-value
unchanged. -/
theorem two_prop_z_test_symm (Φ : ℝ → ℝ) (x1 n1 x2 n2 : ℕ)
    (h1 : 0 < n1) (h2 : 0 < n2)
    (_hpp0 : ((x1:ℚ) + (x2:ℚ)) / ((n1:ℚ) + (n2:ℚ)) ≠ 0)
    (_hpp1 : ((x1:ℚ) + (x2:ℚ)) / ((n1:ℚ) + (n2:ℚ)) ≠ 1) :
    ∃ z p, two_proportion_z_test Φ x1 n1 x2 n2 = some (z, p)
      ∧ two_proportion_z_test Φ x2 n2 x1 n1 = some (-z, p) := by
  refine ⟨specZ x1 n1 x2 n2, 2 * (1 - Φ |specZ x1 n1 x2 n2|),
    two_prop_z_test_eq_spec Φ x1 n1 x2 n2 h1 h2, ?_⟩
  rw [two_prop_z_test_eq_spec Φ x2 n2 x1 n1 h2 h1]
  have hargswap : ((x2:ℝ) + (x1:ℝ)) / ((n2:ℝ) + (n1:ℝ)) *
      (1 - ((x2:ℝ) + (x1:ℝ)) / ((n2:ℝ) + (n1:ℝ))) * (1/(n2:ℝ) + 1/(n1:ℝ))
      = ((x1:ℝ) + (x2:ℝ)) / ((n1:ℝ) + (n2:ℝ)) *
        (1 - ((x1:ℝ) + (x2:ℝ)) / ((n1:ℝ) + (n2:ℝ))) * (1/(n1:ℝ) + 1/(n2:ℝ)) := by
    rw [add_comm (x2:ℝ) (x1:ℝ), add_comm (n2:ℝ) (n1:ℝ), add_comm (1/(n2:ℝ)) (1/(n1:ℝ))]
  have hswap : specZ x2 n2 x1 n1 = -specZ x1 n1 x2 n2 := by
    unfold specZ
    rw [hargswap, ← neg_sub ((x1:ℝ)/(n1:ℝ)) ((x2:ℝ)/(n2:ℝ)), neg_div]
  rw [hswap, abs_neg]

/-- Witness for C6 at the scenario input (pooled proportion 0.6). -/
theorem two_prop_z_test_symm_witness :
    ∃ z p, two_proportion_z_test (fun _ => (1:ℝ)) 50 100 70 100 = some (z, p)
      ∧ two_proportion_z_test (fun _ => (1:ℝ)) 70 100 50 100 = some (-z, p) :=
  two_prop_z_test_symm (fun _ => (1:ℝ)) 50 100 70 100
    (by norm_num) (by norm_num) (by norm_num) (by norm_num)

lemma sampleVar_nonneg (xs : List ℚ) (h : 2 ≤ xs.length) : 0 ≤ sampleVar xs := by
  unfold sampleVar
  apply div_nonneg
  · apply List.sum_nonneg
    intro x hx
    rw [List.mem_map] at hx
    obtain ⟨y, _, rfl⟩ := hx
    positivity
  · have h2 : (2:ℚ) ≤ (xs.length : ℚ) := by exact_mod_cast h
    linarith

lemma sign_div_pos (x d : ℝ) (hd : 0 < d) : Real.sign (x / d) = Real.sign x := by
  rcases lt_trichotomy x 0 with h | h | h
  · rw [Real.sign_of_neg h, Real.sign_of_neg (div_neg_of_neg_of_pos h hd)]
  · rw [h, zero_div]
  · rw [Real.sign_of_pos h, Real.sign_of_pos (div_pos h hd)]

/-- C2: on two numeric samples which, after dropping missing values
independently, each have at least two elements and non-zero variance, the
Welch t-test returns a p-value in `[0,1]` and a t-statistic whose sign is
the sign of `mean(a) - mean(b)`.  `F` is any function with
`1/2 ≤ F df x ≤ 1` for `x ≥ 0`; the CDF of Student's t distribution,
symmetric about 0, has this property. -/
theorem welch_t_test_spec (F : ℝ → ℝ → ℝ)
    (hF : ∀ d x : ℝ, 0 ≤ x → 1/2 ≤ F d x ∧ F d x ≤ 1)
    (sa sb : List (Option ℚ))
    (ha2 : 2 ≤ (dropna sa).length) (hb2 : 2 ≤ (dropna sb).length)
    (hva : sampleVar (dropna sa) ≠ 0) (hvb : sampleVar (dropna sb) ≠ 0) :
    0 ≤ (welch_t_test F sa sb).2 ∧ (welch_t_test F sa sb).2 ≤ 1
    ∧ Real.sign (welch_t_test F sa sb).1 =
        Real.sign (((mean (dropna sa) : ℚ) : ℝ) - ((mean (dropna sb) : ℚ) : ℝ)) := by
  have hp2 : (welch_t_test F sa sb).2 =
      2 * (1 - F ((welch_df (dropna sa) (dropna sb) : ℚ) : ℝ)
        |welch_t (dropna sa) (dropna sb)|) := rfl
  have hp1 : (welch_t_test F sa sb).1 = welch_t (dropna sa) (dropna sb) := rfl
  obtain ⟨hlo, hhi⟩ := hF ((welch_df (dropna sa) (dropna sb) : ℚ) : ℝ)
    |welch_t (dropna sa) (dropna sb)| (abs_nonneg _)
  have hvapos : (0:ℚ) < sampleVar (dropna sa) :=
    lt_of_le_of_ne (sampleVar_nonneg _ ha2) (Ne.symm hva)
  have hvbpos : (0:ℚ) < sampleVar (dropna sb) :=
    lt_of_le_of_ne (sampleVar_nonneg _ hb2) (Ne.symm hvb)
  have hlena : (0:ℝ) < ((dropna sa).length : ℝ) := by
    have h0 : 0 < (dropna sa).length := by omega
    exact_mod_cast h0
  have hlenb : (0:ℝ) < ((dropna sb).length : ℝ) := by
    have h0 : 0 < (dropna sb).length := by omega
    exact_mod_cast h0
  have hvaR : (0:ℝ) < ((sampleVar (dropna sa) : ℚ) : ℝ) := by exact_mod_cast hvapos
  have hvbR : (0:ℝ) < ((sampleVar (dropna sb) : ℚ) : ℝ) := by exact_mod_cast hvbpos
  have hsum : (0:ℝ) < ((sampleVar (dropna sa) : ℚ) : ℝ) / ((dropna sa).length : ℝ) +
      ((sampleVar (dropna sb) : ℚ) : ℝ) / ((dropna sb).length : ℝ) :=
    add_pos (div_pos hvaR hlena) (div_pos hvbR hlenb)
  refine ⟨?_, ?_, ?_⟩
  · rw [hp2]; linarith
  · rw [hp2]; linarith
  · rw [hp1]
    unfold welch_t
    exact sign_div_pos _ _ (Real.sqrt_pos.mpr hsum)

/-- Witness for C2: samples `[1, NaN, 2, 4]` and `[0, 2]` (sizes 3 and 2
after dropping the missing value, variances 7/3 and 2), with the constant
function 3/4 as the t-distribution CDF. -/
theorem welch_t_test_spec_witness :
    0 ≤ (welch_t_test (fun _ _ => 3/4) [some 1, none, some 2, some 4]
        [some 0, some 2]).2
    ∧ (welch_t_test (fun _ _ => 3/4) [some 1, none, some 2, some 4]
        [some 0, some 2]).2 ≤ 1
    ∧ Real.sign (welch_t_test (fun _ _ => 3/4) [some 1, none, some 2, some 4]
        [some 0, some 2]).1 =
        Real.sign (((mean (dropna [some 1, none, some 2, some 4]) : ℚ) : ℝ) -
          ((mean (dropna [some 0, some 2]) : ℚ) : ℝ)) :=
  welch_t_test_spec (fun _ _ => 3/4) (fun _ x _ => by norm_num)
    [some 1, none, some 2, some 4] [some 0, some 2]
    (by simp [dropna]) (by simp [dropna])
    (by norm_num [dropna, sampleVar, mean, List.filterMap])
    (by norm_num [dropna, sampleVar, mean, List.filterMap])

end SindromeGripal
